import Mathlib

/-!
# Verification of the Vendista terminal driver (`vendista.py`)

A shallow embedding of the protocol engine of `vendista.py`: the binary
frame codec (length + CRC16 framing), the event dispatcher, the session
engine's `request` exchange, and the poll loop's housekeeping rules.
Bytes are modelled as natural numbers (with explicit `% 2^k` masks where
the Python code is bounded by machine width), byte strings as `List Nat`,
wall-clock times (Python `time()` floats) as rationals, and the mutable
`Vendista` object state as an explicit `VState` record threaded through
the operations.
-/

namespace Vendista

/-! ## Packet codec (`Vendista.request` lines 205-213, `Vendista.decode` lines 253-273) -/

/-- Little-endian encoding of a 16-bit value, as produced by
`struct.Struct('<HH').pack` for each of its two fields. -/
def u16le (n : Nat) : List Nat := [n % 256, n / 256 % 256]

/-- Little-endian read of a 16-bit value from two bytes, as done by
`struct.Struct('<HH').unpack_from`. -/
def parseU16 (lo hi : Nat) : Nat := lo + 256 * hi

/-- The byte values of the `Type` enumeration (`class Type`, lines 39-64):
0x01-0x0C, 0x0E-0x16, 0x18, 0x1B, 0x30, 0x31. -/
def typeValues : List Nat :=
  [1, 2, 3, 4, 5, 6, 7, 8, 9, 10, 11, 12, 14, 15, 16, 17, 18, 19, 20, 21, 22, 24, 27, 48, 49]

/-- Whether a byte is a recognized packet type (`Type(body[0])` succeeding). -/
def isType (b : Nat) : Bool := typeValues.contains b

/-- One shift step of the CRC16 computation
(`libscrc.hacker16(..., poly=0x8005, init=0xFFFF, xorout=0xFFFF, refin=False,
refout=False)`): if the top bit of the 16-bit register is set, shift left and
xor the polynomial, otherwise just shift left; the register is masked to
16 bits. -/
def crcShift (c : Nat) : Nat :=
  if c.testBit 15 then ((c <<< 1) ^^^ 0x8005) % 65536 else (c <<< 1) % 65536

/-- Absorb one input byte into the CRC16 register: xor it into the high byte,
then run eight shift steps. -/
def crcRound (c b : Nat) : Nat := crcShift^[8] (c ^^^ (b <<< 8))

/-- The CRC16 variant used on the wire: polynomial 0x8005, initial value
0xFFFF, output xor 0xFFFF, no reflection, computed over the whole body. -/
def crc16 (l : List Nat) : Nat := (l.foldl crcRound 0xFFFF) ^^^ 0xFFFF

/-- Frame serialization as performed by `request` (lines 205-213):
`body = type ++ payload`, prefixed by the little-endian 16-bit body length
and CRC16 over the body. -/
def encode (t : Nat) (p : List Nat) : List Nat :=
  u16le (t :: p).length ++ u16le (crc16 (t :: p)) ++ (t :: p)

/-- Outcome of `decode` (lines 253-273). `ok r rest` means the Python call
returned `r` (`none` standing for a `return` with no value) leaving `rest` in
the caller's buffer; `indexError` is the uncaught `IndexError` raised by
`body[0]` when a frame with declared length 0 passes the CRC check. -/
inductive DecodeResult where
  | ok (r : Option (Nat × List Nat)) (rest : List Nat)
  | indexError
deriving Repr, DecidableEq

/-- `Vendista.decode` (lines 253-273): fewer than 5 bytes, or fewer bytes than
the declared length plus 4, return nothing leaving the buffer intact;
otherwise the first `length + 4` bytes are consumed, and the frame is
returned only if the CRC matches and the leading body byte is a recognized
packet type. -/
def decode (data : List Nat) : DecodeResult :=
  if data.length < 5 then .ok none data
  else
    let bodyLength := parseU16 (data.getD 0 0) (data.getD 1 0)
    let crcField := parseU16 (data.getD 2 0) (data.getD 3 0)
    let packetLen := bodyLength + 4
    if data.length < packetLen then .ok none data
    else
      let body := (data.drop 4).take bodyLength
      let rest := data.drop packetLen
      if crc16 body ≠ crcField then .ok none rest
      else
        match body with
        | [] => .indexError
        | t :: payload => if isType t then .ok (some (t, payload)) rest else .ok none rest

/-! ## Session state (`Vendista.__init__` lines 110-132) -/

/-- The `pending_payment` record (`read_card` line 357, `vend_request` line 378):
amount in currency units, the `active` flag, the creation/refresh timestamp,
and the optional masked card number stored by `CARD_READ_RESULT`. -/
structure Payment where
  amount : ℚ
  active : Bool
  time : ℚ
  cardNumber : Option (List Char)
deriving Repr, DecidableEq

/-- The mutable fields of the `Vendista` object relevant to the protocol
engine: `pending_payment`, `connect_state`, `connection_error`,
`error_counter`, `last_check_time` and `last_request_time` (the latter is an
attribute first created by `request`, hence optional). -/
structure VState where
  pendingPayment : Option Payment
  connectState : Nat
  connectionError : Bool
  errorCounter : Nat
  lastCheckTime : Option ℚ
  lastRequestTime : Option ℚ
deriving Repr, DecidableEq

/-- The state installed by `__init__` (lines 117-121): no pending payment,
`ConnectState.NONE`, no sticky connection error, error counter 10, and both
timestamps unset. -/
def initState : VState :=
  { pendingPayment := none
    connectState := 0
    connectionError := false
    errorCounter := 10
    lastCheckTime := none
    lastRequestTime := none }

/-! ## Event dispatcher (`Vendista.event` lines 275-345) -/

/-- An entry put on the outbound `event_queue`, keeping the fields a consumer
can observe: the touch notification, the payment-approved event with amount
and masked card number, and the connect-state-change event. -/
inductive QItem where
  | touch
  | authOk (amount : ℚ) (cardNumber : List Char)
  | connectChange (stateVal : Nat)
deriving Repr, DecidableEq

/-- Outcome of one `event` call: the updated state together with the queue
entries put and the pictures requested via `show_picture`, or the uncaught
`struct.error` raised by `unpack_from('<B8s')` on a short payload. -/
inductive EventRes where
  | ok (st : VState) (q : List QItem) (shows : List Nat)
  | structError
deriving Repr, DecidableEq

/-- Lower-case hex digit, as produced by `binascii.hexlify`. -/
def hexChar (n : Nat) : Char := if n < 10 then Char.ofNat (48 + n) else Char.ofNat (87 + n)

/-- `binascii.hexlify(card).decode()` followed by the masking
`s[:4] + "********" + s[12:]` (lines 293-294). -/
def maskCard (card : List Nat) : List Char :=
  let s := (card.map fun b => [hexChar (b / 16 % 16), hexChar (b % 16)]).flatten
  s.take 4 ++ "********".toList ++ s.drop 12

/-- `ConnectState(data[0])` with `ValueError` mapped to `NONE` (lines
321-324): the enumeration covers exactly the values 0-9. -/
def reportState (b : Nat) : Nat := if b ≤ 9 then b else 0

/-- `Picture.SELECT_GOODS` (2) when connected to the server,
`Picture.UNAVAILABLE` (8) otherwise — the idle display refresh used at
lines 342-345 and in `close_payment`. -/
def idlePicture (connectState : Nat) : Nat := if connectState = 9 then 2 else 8

/-- `Vendista.event` (lines 275-345), for a decoded frame of type `pt` and
payload `data`, at wall-clock time `now`:
* `TOUCH` (0x11): emit a touch event;
* `CARD_READ_RESULT` (0x13): unpack `<B8s` (raising on payloads shorter than
  9 bytes); result 0 and 1 refresh the pending payment's time and clear
  `active`; result 2 additionally stores the masked card number;
* `CARD_AUTH_RESULT` (0x14): a 1-byte payload equal to 1 emits the
  payment-approved event when a payment is pending; any outcome refreshes the
  pending payment's time and clears `active`;
* `CONNECT_STATE_REPORT` (0x18): only for 1-byte payloads: reset the error
  counter, and when the reported state differs, classify as recovered or
  lost, emit the connect-state-change event, update the state and refresh the
  idle display. -/
def eventModel (now : ℚ) (pt : Nat) (data : List Nat) (st : VState) : EventRes :=
  if pt = 17 then .ok st [.touch] []
  else if pt = 19 then
    if data.length < 9 then .structError
    else
      let result := data.getD 0 0
      let card := (data.drop 1).take 8
      if result = 0 ∨ result = 1 then
        match st.pendingPayment with
        | some p => .ok { st with pendingPayment := some { p with time := now, active := false } } [] []
        | none => .ok st [] []
      else if result = 2 then
        match st.pendingPayment with
        | some p =>
            let p' := { p with cardNumber := some (maskCard card), time := now, active := false }
            .ok { st with pendingPayment := some p' } [] []
        | none => .ok st [] []
      else .ok st [] []
  else if pt = 20 then
    let q := if data.length = 1 then
               if data.getD 0 0 = 1 then
                 match st.pendingPayment with
                 | some p => [QItem.authOk p.amount (p.cardNumber.getD [])]
                 | none => []
               else []
             else []
    let st' := match st.pendingPayment with
               | some p => { st with pendingPayment := some { p with time := now, active := false } }
               | none => st
    .ok st' q []
  else if pt = 24 then
    if data.length = 1 then
      let cs := reportState (data.getD 0 0)
      let st1 := { st with errorCounter := 0 }
      if cs ≠ st1.connectState then
        if st1.connectionError ∧ cs = 9 then
          .ok { st1 with connectState := cs } [.connectChange cs] [idlePicture cs]
        else if st1.connectState = 9 then
          .ok { st1 with connectionError := true, connectState := cs } [.connectChange cs] [idlePicture cs]
        else
          .ok { st1 with connectState := cs } [] [idlePicture cs]
      else .ok st1 [] []
    else .ok st [] []
  else .ok st [] []

/-! ## Session engine: `Vendista.request` (lines 205-251) -/

/-- The saturating increment applied to `error_counter` at each of the three
failure sites (`if self.error_counter < 10: self.error_counter += 1`). -/
def satInc (c : Nat) : Nat := if c < 10 then c + 1 else c

/-- Where, if anywhere, the transport raises `SerialException` during a
`request` exchange: while opening the port (before the lock is acquired),
while writing the packet, or while reading the response. -/
inductive FailPoint where
  | noFail
  | atOpen
  | atWrite
  | atRead
deriving Repr, DecidableEq

/-- Outcome of the drain loop at lines 228-231 / 234-237
(`while len(received) > 0: result = self.decode(received); if result is not
None: self.event(...)`): normal exit with the accumulated dispatch effects, an
uncaught exception from `decode`/`event`, or failure to exit within the given
number of iterations (the loop has no break on an unconsumed residue). -/
inductive DrainRes where
  | ok (st : VState) (q : List QItem) (shows : List Nat)
  | crash
  | diverge
deriving Repr, DecidableEq

/-- The request-side drain loop, with an explicit iteration bound `fuel`:
decode the remaining buffer and dispatch every decoded frame through `event`;
a `decode` returning nothing dispatches nothing (and, when it consumed
nothing, leaves the buffer — and hence the loop — unchanged). -/
def drainReq (fuel : Nat) (buf : List Nat) (now : ℚ) (st : VState) : DrainRes :=
  match fuel with
  | 0 => if buf = [] then .ok st [] [] else .diverge
  | fuel + 1 =>
    if buf = [] then .ok st [] []
    else
      match decode buf with
      | .indexError => .crash
      | .ok none rest => drainReq fuel rest now st
      | .ok (some (t, body)) rest =>
          match eventModel now t body st with
          | .ok st' q sh =>
              match drainReq fuel rest now st' with
              | .ok st'' q' sh' => .ok st'' (q ++ q') (sh ++ sh')
              | .crash => .crash
              | .diverge => .diverge
          | .structError => .crash

/-- What `request` hands back to its caller: `Type.ACK` itself, a direct
`(type, payload)` response, or `None` (falling off the end of the function). -/
inductive ReqRet where
  | ackRet
  | respRet (t : Nat) (body : List Nat)
  | noneRet
deriving Repr, DecidableEq

/-- Outcome of one `request` call: a normal return with the state reached and
the dispatch effects of the drained frames, an exception propagated to the
caller (`RuntimeError` from releasing an unheld lock, or an uncaught
`IndexError`/`struct.error`) with the state reached, a crash inside the drain,
or a drain that never exits. -/
inductive ReqResult where
  | ret (v : ReqRet) (st : VState) (q : List QItem) (shows : List Nat)
  | raised (st : VState)
  | abnormal
  | diverge
deriving Repr, DecidableEq

/-- `Vendista.request` (lines 205-251) from the point where the packet is
built: `last_request_time` is set, then the exchange runs under the lock.
`fail` says where the transport raises, `received` is what the bounded read
returned. On `SerialException` the handler releases the lock — which raises
`RuntimeError` when the failure happened at `open()`, before the lock was
acquired — then increments the error counter and logs. On an empty or
undecodable response the counter is incremented; an ACK resets it to 0 and
the remaining frames are drained; any other decoded frame is returned after
the same drain. -/
def requestModel (fail : FailPoint) (received : List Nat) (now : ℚ) (fuel : Nat)
    (st : VState) : ReqResult :=
  let st0 := { st with lastRequestTime := some now }
  match fail with
  | .atOpen => .raised st0
  | .atWrite => .ret .noneRet { st0 with errorCounter := satInc st0.errorCounter } [] []
  | .atRead => .ret .noneRet { st0 with errorCounter := satInc st0.errorCounter } [] []
  | .noFail =>
    if received = [] then
      .ret .noneRet { st0 with errorCounter := satInc st0.errorCounter } [] []
    else
      match decode received with
      | .indexError => .raised st0
      | .ok none _ => .ret .noneRet { st0 with errorCounter := satInc st0.errorCounter } [] []
      | .ok (some (t, body)) rest =>
          if t = 21 then
            let st1 := { st0 with errorCounter := 0 }
            match drainReq fuel rest now st1 with
            | .ok st2 q sh => .ret .ackRet st2 q sh
            | .crash => .abnormal
            | .diverge => .diverge
          else
            match drainReq fuel rest now st0 with
            | .ok st2 q sh => .ret (.respRet t body) st2 q sh
            | .crash => .abnormal
            | .diverge => .diverge

/-! ## Poll-loop housekeeping (`Vendista.vendista_loop` lines 157-203,
`Vendista.close_payment` lines 382-389) -/

/-- `close_payment`: drop the pending payment (if any) and refresh the idle
display according to the current connect state. -/
def closePayment (st : VState) : VState × List Nat :=
  ({ st with pendingPayment := none }, [idlePicture st.connectState])

/-- The pending-payment timeout check of each poll-loop tick (lines 174-179):
with a pending payment, the allowed age is 70 s while `active` and 50 s
otherwise; past it the payment is closed. -/
def paymentCheck (now : ℚ) (st : VState) : VState × List Nat :=
  match st.pendingPayment with
  | none => (st, [])
  | some p =>
      let timeout : ℚ := if p.active then 70 else 50
      if now - p.time > timeout then closePayment st else (st, [])

/-- The connection-status check of each poll-loop tick (lines 180-185):
promote `NONE` to `DISCONNECTED` when the error counter is 0, demote any
state above `NONE` to `NONE` — logging the transition — when the counter
exceeds 5. The returned flag records whether the demotion was logged. -/
def connCheck (st : VState) : VState × Bool :=
  if st.errorCounter = 0 ∧ st.connectState = 0 then
    ({ st with connectState := 1 }, false)
  else if 5 < st.errorCounter ∧ 0 < st.connectState then
    ({ st with connectState := 0 }, true)
  else (st, false)

/-- The state-changing housekeeping of one poll-loop tick after the drain
(lines 174-194): the payment timeout check, the connection-status check, the
heartbeat-timestamp update, and the anti-idle display refresh (a collaborator
call only). Returns the new state and the pictures requested. -/
def tickModel (now : ℚ) (st : VState) : VState × List Nat :=
  let pc := paymentCheck now st
  let st2 := (connCheck pc.1).1
  let doHeartbeat := match st2.lastCheckTime with
                     | none => true
                     | some t => decide (now - t > 10)
  let st3 := if doHeartbeat then { st2 with lastCheckTime := some now } else st2
  let antiIdle := match st3.lastRequestTime with
                  | none => []
                  | some t => if now - t > 600 then [idlePicture st3.connectState] else []
  (st3, pc.2 ++ antiIdle)

/-- Buffer evolution of the poll loop's per-tick decode-and-dispatch loop
(lines 168-173): each iteration invokes `decode` and continues on whatever it
left in the buffer; neither `event` nor the `get_connect_state` probe touches
this local buffer. Returns whether the loop exits (buffer emptied, or an
exception from `decode`) within `fuel` iterations. -/
def pollDrainExits (fuel : Nat) (buf : List Nat) : Bool :=
  match fuel with
  | 0 => buf = []
  | fuel + 1 =>
    if buf = [] then true
    else
      match decode buf with
      | .indexError => true
      | .ok _ rest => pollDrainExits fuel rest

/-! ## Shared-state operations and traces -/

/-- One shared-state-mutating operation of the driver, as performed by the
poll loop, by `request`, or by a caller-facing method: a full `request`
exchange, the dispatch of one unsolicited frame, the housekeeping part of one
poll-loop tick, the `SerialException` handler of `vendista_loop` (lines
196-201, forcing the state to `NONE`), and the caller operations that touch
the pending payment (`read_card`, `vend_request`, `cancel_read_card`,
`cancel_last_transaction`; their embedded `request` calls are separate
`req` operations). -/
inductive Op where
  | req (fail : FailPoint) (received : List Nat) (now : ℚ) (fuel : Nat)
  | ev (now : ℚ) (pt : Nat) (data : List Nat)
  | tick (now : ℚ)
  | serialFail
  | readCard (amount : ℚ) (now : ℚ)
  | vendRequest (amount : ℚ) (now : ℚ)
  | cancelRead
  | cancelLast (now : ℚ)

/-- The state reached by one operation; `none` when the operation crashed or
its drain never exited, so no final state is reached. -/
def stepOp (op : Op) (st : VState) : Option VState :=
  match op with
  | .req fail received now fuel =>
      match requestModel fail received now fuel st with
      | .ret _ st' _ _ => some st'
      | .raised st' => some st'
      | .abnormal => none
      | .diverge => none
  | .ev now pt data =>
      match eventModel now pt data st with
      | .ok st' _ _ => some st'
      | .structError => none
  | .tick now => some (tickModel now st).1
  | .serialFail => some { st with connectState := 0 }
  | .readCard amount now =>
      some { st with pendingPayment := some ⟨amount, true, now, none⟩ }
  | .vendRequest amount now =>
      some { st with pendingPayment := some ⟨amount, true, now, none⟩ }
  | .cancelRead => some (closePayment st).1
  | .cancelLast now =>
      some (match st.pendingPayment with
            | some p => { st with pendingPayment := some { p with time := now, active := false } }
            | none => st)

/-- All states visited while running a list of operations, the initial one
included; `none` as soon as one operation crashes. -/
def traceStates (ops : List Op) (st : VState) : Option (List VState) :=
  match ops with
  | [] => some [st]
  | op :: rest =>
      match stepOp op st with
      | some st' => (traceStates rest st').map (st :: ·)
      | none => none

/-! ## CRC16 algebra

The shift step is linear over GF(2) (xor), so the CRCs of two equal-length
bodies differ by the homogeneous CRC of their bytewise xor; a single-bit
difference therefore always changes the CRC, because the polynomial 0x8005
has a unit constant term, making the shift step preserve nonzero registers. -/

theorem xor_mix (a b x y : Nat) : (a ^^^ x) ^^^ (b ^^^ y) = (a ^^^ b) ^^^ (x ^^^ y) := by
  apply Nat.eq_of_testBit_eq
  intro i
  simp only [Nat.testBit_xor]
  cases a.testBit i <;> cases b.testBit i <;> cases x.testBit i <;> cases y.testBit i <;> rfl

theorem shiftLeft_xor_distrib (a b k : Nat) : (a ^^^ b) <<< k = (a <<< k) ^^^ (b <<< k) := by
  apply Nat.eq_of_testBit_eq
  intro i
  simp only [Nat.testBit_shiftLeft, Nat.testBit_xor]
  cases hk : decide (i ≥ k) <;> simp

theorem mod_two_pow_xor_distrib (a b : Nat) :
    (a ^^^ b) % 65536 = a % 65536 ^^^ b % 65536 := by
  have h : (65536 : Nat) = 2 ^ 16 := by norm_num
  rw [h]
  apply Nat.eq_of_testBit_eq
  intro i
  simp only [Nat.testBit_mod_two_pow, Nat.testBit_xor]
  cases hk : decide (i < 16) <;> simp

theorem crcShift_lt (c : Nat) : crcShift c < 65536 := by
  unfold crcShift
  split <;> exact Nat.mod_lt _ (by norm_num)

theorem crcShift_xor (a b : Nat) : crcShift (a ^^^ b) = crcShift a ^^^ crcShift b := by
  have hbit : (a ^^^ b).testBit 15 = (a.testBit 15 ^^ b.testBit 15) := Nat.testBit_xor a b 15
  cases ha : a.testBit 15 <;> cases hb : b.testBit 15 <;>
    rw [ha, hb] at hbit <;>
    simp only [Bool.xor_false, Bool.xor_true, Bool.false_xor, Bool.true_xor,
      Bool.not_false, Bool.not_true] at hbit <;>
    unfold crcShift
  · rw [if_neg (by simp [hbit]), if_neg (by simp [ha]), if_neg (by simp [hb]),
      shiftLeft_xor_distrib, mod_two_pow_xor_distrib]
  · rw [if_pos (by simp [hbit]), if_neg (by simp [ha]), if_pos (by simp [hb]),
      ← mod_two_pow_xor_distrib, shiftLeft_xor_distrib, Nat.xor_assoc]
  · rw [if_pos (by simp [hbit]), if_pos (by simp [ha]), if_neg (by simp [hb]),
      ← mod_two_pow_xor_distrib, shiftLeft_xor_distrib]
    congr 1
    rw [Nat.xor_assoc, Nat.xor_comm (b <<< 1) 0x8005, ← Nat.xor_assoc]
  · rw [if_neg (by simp [hbit]), if_pos (by simp [ha]), if_pos (by simp [hb]),
      ← mod_two_pow_xor_distrib, shiftLeft_xor_distrib]
    congr 1
    rw [xor_mix, Nat.xor_self, Nat.xor_zero]

theorem crcShift_iterate_xor (n a b : Nat) :
    crcShift^[n] (a ^^^ b) = crcShift^[n] a ^^^ crcShift^[n] b := by
  induction n with
  | zero => rfl
  | succ n ih => rw [Function.iterate_succ_apply', Function.iterate_succ_apply',
      Function.iterate_succ_apply', ih, crcShift_xor]

theorem crcRound_xor (c1 c2 b1 b2 : Nat) :
    crcRound (c1 ^^^ c2) (b1 ^^^ b2) = crcRound c1 b1 ^^^ crcRound c2 b2 := by
  unfold crcRound
  rw [shiftLeft_xor_distrib, xor_mix, crcShift_iterate_xor]

theorem foldl_crcRound_xor : ∀ (a b : List Nat) (c1 c2 : Nat), a.length = b.length →
    (List.zipWith (· ^^^ ·) a b).foldl crcRound (c1 ^^^ c2) =
      a.foldl crcRound c1 ^^^ b.foldl crcRound c2 := by
  intro a
  induction a with
  | nil =>
      intro b c1 c2 h
      cases b with
      | nil => rfl
      | cons y ys => simp at h
  | cons x xs ih =>
      intro b c1 c2 h
      cases b with
      | nil => simp at h
      | cons y ys =>
          simp only [List.zipWith_cons_cons, List.foldl_cons]
          rw [crcRound_xor]
          exact ih ys _ _ (by simpa using h)

theorem crc16_xor (a b : List Nat) (h : a.length = b.length) :
    crc16 a ^^^ crc16 b = (List.zipWith (· ^^^ ·) a b).foldl crcRound 0 := by
  unfold crc16
  rw [xor_mix, Nat.xor_self, Nat.xor_zero]
  have h0 : (0 : Nat) = 0xFFFF ^^^ 0xFFFF := by decide
  rw [h0, foldl_crcRound_xor a b _ _ h]

theorem crcShift_zero : crcShift 0 = 0 := by decide

theorem crcShift_iterate_zero (n : Nat) : crcShift^[n] 0 = 0 := by
  induction n with
  | zero => rfl
  | succ n ih => rw [Function.iterate_succ_apply', ih, crcShift_zero]

theorem foldl_crcRound_leading_zeros (k : Nat) (l : List Nat) :
    (List.replicate k 0 ++ l).foldl crcRound 0 = l.foldl crcRound 0 := by
  induction k with
  | zero => rfl
  | succ k ih =>
      have hz : crcRound 0 0 = 0 := by
        unfold crcRound
        rw [Nat.zero_shiftLeft, Nat.xor_self, crcShift_iterate_zero]
      simpa [List.replicate_succ, hz] using ih

theorem crcShift_ne_zero {c : Nat} (hc : c < 65536) (h : c ≠ 0) : crcShift c ≠ 0 := by
  unfold crcShift
  by_cases hb : c.testBit 15
  · rw [if_pos hb]
    intro h0
    have hbit0 : (((c <<< 1) ^^^ 0x8005) % 65536).testBit 0 = true := by
      rw [show (65536 : Nat) = 2 ^ 16 by norm_num, Nat.testBit_mod_two_pow,
        Nat.testBit_xor, Nat.testBit_shiftLeft]
      simp
    rw [h0] at hbit0
    simp [Nat.zero_testBit] at hbit0
  · rw [if_neg hb]
    have hb' : ¬ c / 2 ^ 15 % 2 = 1 := by
      have hbf : c.testBit 15 = false := by simpa using hb
      have := Nat.testBit_to_div_mod (i := 15) (x := c)
      rw [hbf] at this
      exact of_decide_eq_false this.symm
    have hlt : c < 32768 := by
      have h15 : (2 : Nat) ^ 15 = 32768 := by norm_num
      rw [h15] at hb'
      omega
    rw [Nat.shiftLeft_eq]
    have h2 : c * 2 ^ 1 < 65536 := by omega
    rw [Nat.mod_eq_of_lt h2]
    omega

theorem crcShift_iterate_ne_zero (n : Nat) {c : Nat} (hc : c < 65536) (h : c ≠ 0) :
    crcShift^[n] c ≠ 0 ∧ crcShift^[n] c < 65536 := by
  induction n with
  | zero => exact ⟨h, hc⟩
  | succ n ih =>
      rw [Function.iterate_succ_apply']
      exact ⟨crcShift_ne_zero ih.2 ih.1, crcShift_lt _⟩

theorem foldl_crcRound_zeros (m : Nat) {c : Nat} (hc : c < 65536) (h : c ≠ 0) :
    (List.replicate m 0).foldl crcRound c ≠ 0 := by
  induction m generalizing c with
  | zero => exact h
  | succ m ih =>
      have hr : crcRound c 0 = crcShift^[8] c := by
        unfold crcRound
        rw [Nat.zero_shiftLeft, Nat.xor_zero]
      have h8 := crcShift_iterate_ne_zero 8 hc h
      simpa [List.replicate_succ, hr] using ih h8.2 h8.1

theorem zipWith_xor_self (l : List Nat) :
    List.zipWith (· ^^^ ·) l l = List.replicate l.length 0 := by
  induction l with
  | nil => rfl
  | cons x xs ih => simp [List.zipWith_cons_cons, Nat.xor_self, ih, List.replicate_succ]

theorem zipWith_xor_set (a : List Nat) : ∀ (k v : Nat), k < a.length →
    List.zipWith (· ^^^ ·) a (a.set k v) =
      List.replicate k 0 ++ (a.getD k 0 ^^^ v) :: List.replicate (a.length - (k + 1)) 0 := by
  induction a with
  | nil => intro k v hk; simp at hk
  | cons x xs ih =>
      intro k v hk
      cases k with
      | zero =>
          simp only [List.set_cons_zero, List.zipWith_cons_cons, List.getD_cons_zero,
            List.replicate, List.nil_append, List.length_cons]
          rw [zipWith_xor_self]
          simp
      | succ k =>
          simp only [List.set_cons_succ, List.zipWith_cons_cons, List.getD_cons_succ,
            Nat.xor_self, List.length_cons, List.replicate_succ, List.cons_append]
          congr 1
          have : k < xs.length := by simpa [Nat.succ_lt_succ_iff] using hk
          simpa using ih k v this

theorem crc16_flip_ne (a : List Nat) (k j : Nat) (hk : k < a.length) (hj : j < 8) :
    crc16 (a.set k (a.getD k 0 ^^^ 1 <<< j)) ≠ crc16 a := by
  intro heq
  have hlen : a.length = (a.set k (a.getD k 0 ^^^ 1 <<< j)).length := (List.length_set ..).symm
  have hx : crc16 a ^^^ crc16 (a.set k (a.getD k 0 ^^^ 1 <<< j)) = 0 := by
    rw [heq, Nat.xor_self]
  rw [crc16_xor _ _ hlen] at hx
  rw [zipWith_xor_set a k _ hk] at hx
  rw [foldl_crcRound_leading_zeros] at hx
  have hcancel : a.getD k 0 ^^^ (a.getD k 0 ^^^ 1 <<< j) = 1 <<< j := by
    rw [← Nat.xor_assoc, Nat.xor_self, Nat.zero_xor]
  rw [hcancel] at hx
  simp only [List.foldl_cons] at hx
  have hr : crcRound 0 (1 <<< j) = crcShift^[8] (1 <<< (j + 8)) := by
    unfold crcRound
    rw [Nat.zero_xor, Nat.shiftLeft_eq, Nat.shiftLeft_eq, Nat.shiftLeft_eq,
      one_mul, one_mul, ← pow_add]
  have hpow_lt : 1 <<< (j + 8) < 65536 := by
    rw [Nat.shiftLeft_eq, one_mul]
    calc 2 ^ (j + 8) < 2 ^ 16 := Nat.pow_lt_pow_right (by norm_num) (by omega)
    _ = 65536 := by norm_num
  have hpow_ne : 1 <<< (j + 8) ≠ 0 := by
    rw [Nat.shiftLeft_eq, one_mul]
    exact Nat.pos_iff_ne_zero.mp (pow_pos (by norm_num) _)
  have h8 := crcShift_iterate_ne_zero 8 hpow_lt hpow_ne
  rw [hr] at hx
  exact foldl_crcRound_zeros _ h8.2 h8.1 hx

theorem crcShift_iterate8_lt (x : Nat) : crcShift^[8] x < 65536 := by
  have h : crcShift^[8] x = crcShift (crcShift^[7] x) := Function.iterate_succ_apply' crcShift 7 x
  rw [h]
  exact crcShift_lt _

theorem foldl_crcRound_lt (l : List Nat) : ∀ {c : Nat}, c < 65536 →
    l.foldl crcRound c < 65536 := by
  induction l with
  | nil => intro c hc; exact hc
  | cons x xs ih =>
      intro c hc
      exact ih (crcShift_iterate8_lt _)

theorem crc16_lt (l : List Nat) : crc16 l < 65536 := by
  have h : l.foldl crcRound 0xFFFF < 65536 := foldl_crcRound_lt l (by norm_num)
  unfold crc16
  rw [show (65536 : Nat) = 2 ^ 16 by norm_num] at h ⊢
  exact Nat.xor_lt_two_pow h (by norm_num)

theorem parseU16_u16le {n : Nat} (h : n < 65536) :
    parseU16 (n % 256) (n / 256 % 256) = n := by
  unfold parseU16
  omega

/-! ## Dispatcher and session-engine lemmas -/

theorem eventModel_errorCounter {now : ℚ} {pt : Nat} {data : List Nat} {st st' : VState}
    {q : List QItem} {sh : List Nat} (h : eventModel now pt data st = .ok st' q sh) :
    st'.errorCounter = 0 ∨ st'.errorCounter = st.errorCounter := by
  simp only [eventModel] at h
  repeat' split at h
  all_goals first
    | (rw [EventRes.ok.injEq] at h
       obtain ⟨h1, -, -⟩ := h
       subst h1
       simp)
    | simp at h

theorem eventModel_nonreset {now : ℚ} {pt : Nat} {data : List Nat} {st st' : VState}
    {q : List QItem} {sh : List Nat} (h : eventModel now pt data st = .ok st' q sh)
    (hc : st'.errorCounter ≠ 0) :
    st'.errorCounter = st.errorCounter ∧ st'.connectState = st.connectState := by
  simp only [eventModel] at h
  repeat' split at h
  all_goals first
    | (rw [EventRes.ok.injEq] at h
       obtain ⟨h1, -, -⟩ := h
       subst h1
       first
         | exact ⟨rfl, rfl⟩
         | exact absurd rfl hc)
    | simp at h

theorem drainReq_errorCounter : ∀ (fuel : Nat) (buf : List Nat) (now : ℚ) (st st' : VState)
    (q : List QItem) (sh : List Nat), drainReq fuel buf now st = .ok st' q sh →
    st'.errorCounter = 0 ∨ st'.errorCounter = st.errorCounter := by
  intro fuel
  induction fuel with
  | zero =>
      intro buf now st st' q sh h
      simp only [drainReq] at h
      split at h
      · rw [DrainRes.ok.injEq] at h
        obtain ⟨h1, -, -⟩ := h
        subst h1
        right; rfl
      · simp at h
  | succ fuel ih =>
      intro buf now st st' q sh h
      simp only [drainReq] at h
      split at h
      · rw [DrainRes.ok.injEq] at h
        obtain ⟨h1, -, -⟩ := h
        subst h1
        right; rfl
      · split at h
        · simp at h
        · exact ih _ _ _ _ _ _ h
        · split at h
          · next st1 q1 sh1 hev =>
              split at h
              · next st2 q2 sh2 hdr =>
                  rw [DrainRes.ok.injEq] at h
                  obtain ⟨h1, -, -⟩ := h
                  subst h1
                  rcases ih _ _ _ _ _ _ hdr with h2 | h2
                  · exact Or.inl h2
                  · rcases eventModel_errorCounter hev with h3 | h3
                    · exact Or.inl (h2.trans h3)
                    · exact Or.inr (h2.trans h3)
              · simp at h
              · simp at h
          · simp at h

theorem drainReq_nonreset : ∀ (fuel : Nat) (buf : List Nat) (now : ℚ) (st st' : VState)
    (q : List QItem) (sh : List Nat), drainReq fuel buf now st = .ok st' q sh →
    st'.errorCounter ≠ 0 →
    st'.errorCounter = st.errorCounter ∧ st'.connectState = st.connectState := by
  intro fuel
  induction fuel with
  | zero =>
      intro buf now st st' q sh h hc
      simp only [drainReq] at h
      split at h
      · rw [DrainRes.ok.injEq] at h
        obtain ⟨h1, -, -⟩ := h
        subst h1
        exact ⟨rfl, rfl⟩
      · simp at h
  | succ fuel ih =>
      intro buf now st st' q sh h hc
      simp only [drainReq] at h
      split at h
      · rw [DrainRes.ok.injEq] at h
        obtain ⟨h1, -, -⟩ := h
        subst h1
        exact ⟨rfl, rfl⟩
      · split at h
        · simp at h
        · exact ih _ _ _ _ _ _ h hc
        · split at h
          · next st1 q1 sh1 hev =>
              split at h
              · next st2 q2 sh2 hdr =>
                  rw [DrainRes.ok.injEq] at h
                  obtain ⟨h1, -, -⟩ := h
                  subst h1
                  have h2 := ih _ _ _ _ _ _ hdr hc
                  have h3 := eventModel_nonreset hev (h2.1 ▸ hc)
                  exact ⟨h2.1.trans h3.1, h2.2.trans h3.2⟩
              · simp at h
              · simp at h
          · simp at h

theorem requestModel_ret_counter {fail : FailPoint} {received : List Nat} {now : ℚ}
    {fuel : Nat} {st : VState} {v : ReqRet} {st' : VState} {q : List QItem} {sh : List Nat}
    (h : requestModel fail received now fuel st = .ret v st' q sh) :
    st'.errorCounter = 0 ∨ st'.errorCounter = st.errorCounter ∨
      st'.errorCounter = satInc st.errorCounter := by
  cases fail <;> simp only [requestModel] at h
  case atOpen => simp at h
  case atWrite =>
    rw [ReqResult.ret.injEq] at h
    obtain ⟨-, h1, -, -⟩ := h
    subst h1
    right; right; rfl
  case atRead =>
    rw [ReqResult.ret.injEq] at h
    obtain ⟨-, h1, -, -⟩ := h
    subst h1
    right; right; rfl
  case noFail =>
    split at h
    · rw [ReqResult.ret.injEq] at h
      obtain ⟨-, h1, -, -⟩ := h
      subst h1
      right; right; rfl
    · split at h
      · simp at h
      · rw [ReqResult.ret.injEq] at h
        obtain ⟨-, h1, -, -⟩ := h
        subst h1
        right; right; rfl
      · split at h
        · split at h
          · next st2 q2 sh2 hdr =>
              rw [ReqResult.ret.injEq] at h
              obtain ⟨-, h1, -, -⟩ := h
              subst h1
              rcases drainReq_errorCounter _ _ _ _ _ _ _ hdr with h2 | h2
              · exact Or.inl h2
              · exact Or.inl h2
          · simp at h
          · simp at h
        · split at h
          · next st2 q2 sh2 hdr =>
              rw [ReqResult.ret.injEq] at h
              obtain ⟨-, h1, -, -⟩ := h
              subst h1
              rcases drainReq_errorCounter _ _ _ _ _ _ _ hdr with h2 | h2
              · exact Or.inl h2
              · exact Or.inr (Or.inl h2)
          · simp at h
          · simp at h

theorem requestModel_raised_eq {fail : FailPoint} {received : List Nat} {now : ℚ}
    {fuel : Nat} {st st' : VState}
    (h : requestModel fail received now fuel st = .raised st') :
    st' = { st with lastRequestTime := some now } := by
  cases fail <;> simp only [requestModel] at h
  case atOpen =>
    rw [ReqResult.raised.injEq] at h
    exact h.symm
  case atWrite => simp at h
  case atRead => simp at h
  case noFail =>
    split at h
    · simp at h
    · split at h
      · rw [ReqResult.raised.injEq] at h
        exact h.symm
      · simp at h
      · split at h <;> split at h <;> simp at h

theorem requestModel_nonreset {fail : FailPoint} {received : List Nat} {now : ℚ}
    {fuel : Nat} {st : VState} {v : ReqRet} {st' : VState} {q : List QItem} {sh : List Nat}
    (h : requestModel fail received now fuel st = .ret v st' q sh)
    (hc : st'.errorCounter ≠ 0) :
    st'.connectState = st.connectState ∧
      (st'.errorCounter = st.errorCounter ∨ st'.errorCounter = satInc st.errorCounter) := by
  cases fail <;> simp only [requestModel] at h
  case atOpen => simp at h
  case atWrite =>
    rw [ReqResult.ret.injEq] at h
    obtain ⟨-, h1, -, -⟩ := h
    subst h1
    exact ⟨rfl, Or.inr rfl⟩
  case atRead =>
    rw [ReqResult.ret.injEq] at h
    obtain ⟨-, h1, -, -⟩ := h
    subst h1
    exact ⟨rfl, Or.inr rfl⟩
  case noFail =>
    split at h
    · rw [ReqResult.ret.injEq] at h
      obtain ⟨-, h1, -, -⟩ := h
      subst h1
      exact ⟨rfl, Or.inr rfl⟩
    · split at h
      · simp at h
      · rw [ReqResult.ret.injEq] at h
        obtain ⟨-, h1, -, -⟩ := h
        subst h1
        exact ⟨rfl, Or.inr rfl⟩
      · split at h
        · split at h
          · next st2 q2 sh2 hdr =>
              rw [ReqResult.ret.injEq] at h
              obtain ⟨-, h1, -, -⟩ := h
              subst h1
              rcases drainReq_errorCounter _ _ _ _ _ _ _ hdr with h2 | h2
              · exact absurd h2 hc
              · exact absurd h2 hc
          · simp at h
          · simp at h
        · split at h
          · next st2 q2 sh2 hdr =>
              rw [ReqResult.ret.injEq] at h
              obtain ⟨-, h1, -, -⟩ := h
              subst h1
              have h2 := drainReq_nonreset _ _ _ _ _ _ _ hdr hc
              exact ⟨h2.2, Or.inl h2.1⟩
          · simp at h
          · simp at h

theorem requestModel_ack_resets {received : List Nat} {now : ℚ} {fuel : Nat}
    {st st' : VState} {q : List QItem} {sh : List Nat}
    (h : requestModel .noFail received now fuel st = .ret .ackRet st' q sh) :
    st'.errorCounter = 0 := by
  simp only [requestModel] at h
  split at h
  · simp at h
  · split at h
    · simp at h
    · simp at h
    · split at h
      · split at h
        · next st2 q2 sh2 hdr =>
            rw [ReqResult.ret.injEq] at h
            obtain ⟨-, h1, -, -⟩ := h
            subst h1
            rcases drainReq_errorCounter _ _ _ _ _ _ _ hdr with h2 | h2
            · exact h2
            · exact h2
        · simp at h
        · simp at h
      · split at h
        · next st2 q2 sh2 hdr =>
            rw [ReqResult.ret.injEq] at h
            obtain ⟨h1, -, -, -⟩ := h
            exact absurd h1 (by simp)
        · simp at h
        · simp at h

theorem eventModel_report_resets {now : ℚ} {b : Nat} {st st' : VState}
    {q : List QItem} {sh : List Nat} (h : eventModel now 24 [b] st = .ok st' q sh) :
    st'.errorCounter = 0 := by
  simp only [eventModel] at h
  repeat' split at h
  all_goals first
    | omega
    | (rw [EventRes.ok.injEq] at h
       obtain ⟨h1, -, -⟩ := h
       subst h1
       rfl)
    | simp_all

theorem paymentCheck_fields (now : ℚ) (st : VState) :
    (paymentCheck now st).1.errorCounter = st.errorCounter ∧
      (paymentCheck now st).1.connectState = st.connectState := by
  cases hp : st.pendingPayment with
  | none => simp [paymentCheck, hp]
  | some p =>
      simp only [paymentCheck, hp, closePayment]
      split_ifs <;> exact ⟨rfl, rfl⟩

theorem connCheck_counter (st : VState) : (connCheck st).1.errorCounter = st.errorCounter := by
  unfold connCheck
  split_ifs <;> rfl

theorem tickModel_counter (now : ℚ) (st : VState) :
    (tickModel now st).1.errorCounter = st.errorCounter := by
  simp only [tickModel]
  split
  · show (connCheck (paymentCheck now st).1).1.errorCounter = st.errorCounter
    rw [connCheck_counter, (paymentCheck_fields now st).1]
  · show (connCheck (paymentCheck now st).1).1.errorCounter = st.errorCounter
    rw [connCheck_counter, (paymentCheck_fields now st).1]

theorem tickModel_state_none (now : ℚ) {st : VState} (h10 : st.errorCounter = 10)
    (h0 : st.connectState = 0) : (tickModel now st).1.connectState = 0 := by
  have hcc : (connCheck (paymentCheck now st).1).1.connectState = 0 := by
    unfold connCheck
    rw [if_neg, if_neg]
    · rw [(paymentCheck_fields now st).2, h0]
    · rw [(paymentCheck_fields now st).2, h0]
      simp
    · rw [(paymentCheck_fields now st).1, h10]
      simp
  simp only [tickModel]
  split
  · exact hcc
  · exact hcc

theorem satInc_le {c : Nat} (h : c ≤ 10) : satInc c ≤ 10 := by
  unfold satInc
  split <;> omega

theorem stepOp_counter_le {op : Op} {st st' : VState} (h : stepOp op st = some st')
    (hle : st.errorCounter ≤ 10) : st'.errorCounter ≤ 10 := by
  cases op with
  | req fail received now fuel =>
      simp only [stepOp] at h
      split at h
      · next v st1 q sh hreq =>
          rw [Option.some.injEq] at h
          subst h
          rcases requestModel_ret_counter hreq with h2 | h2 | h2
          · omega
          · omega
          · rw [h2]; exact satInc_le hle
      · next st1 hreq =>
          rw [Option.some.injEq] at h
          subst h
          rw [requestModel_raised_eq hreq]
          exact hle
      · simp at h
      · simp at h
  | ev now pt data =>
      simp only [stepOp] at h
      split at h
      · next st1 q sh hev =>
          rw [Option.some.injEq] at h
          subst h
          rcases eventModel_errorCounter hev with h2 | h2 <;> omega
      · simp at h
  | tick now =>
      simp only [stepOp, Option.some.injEq] at h
      subst h
      rw [tickModel_counter]
      exact hle
  | serialFail =>
      simp only [stepOp, Option.some.injEq] at h
      subst h
      exact hle
  | readCard amount now =>
      simp only [stepOp, Option.some.injEq] at h
      subst h
      exact hle
  | vendRequest amount now =>
      simp only [stepOp, Option.some.injEq] at h
      subst h
      exact hle
  | cancelRead =>
      simp only [stepOp, Option.some.injEq] at h
      subst h
      exact hle
  | cancelLast now =>
      simp only [stepOp, Option.some.injEq] at h
      subst h
      cases hp : st.pendingPayment <;> simp [hp, hle]

/-! ## Claim theorems: the packet codec -/

/-- **C1**: for every recognized packet type `t` and every payload `p` of
bytes within the supported sizes (body length representable in the 16-bit
length field), decoding a buffer holding exactly the frame built by
`request`'s serialization — little-endian length and CRC16 prepended to
`t ++ p` — returns exactly `(t, p)` and consumes the whole frame. -/
theorem decode_encode (t : Nat) (p : List Nat) (ht : isType t = true)
    (hlen : p.length + 1 < 65536) ( _hbytes : ∀ b ∈ p, b < 256) :
    decode (encode t p) = .ok (some (t, p)) [] := by
  have hC := crc16_lt (t :: p)
  have henc : encode t p =
      (p.length + 1) % 256 :: ((p.length + 1) / 256 % 256) :: (crc16 (t :: p)) % 256 ::
        ((crc16 (t :: p)) / 256 % 256) :: t :: p := by
    simp [encode, u16le]
  rw [henc]
  have hL : parseU16 ((p.length + 1) % 256) ((p.length + 1) / 256 % 256) = p.length + 1 :=
    parseU16_u16le hlen
  have hCrc : parseU16 (crc16 (t :: p) % 256) (crc16 (t :: p) / 256 % 256) = crc16 (t :: p) :=
    parseU16_u16le hC
  simp only [decode, List.length_cons, List.getD_cons_zero, List.getD_cons_succ, hL, hCrc]
  rw [if_neg (by omega), if_neg (by omega)]
  simp only [List.drop_succ_cons, List.drop_zero, List.take_succ_cons, List.take_length]
  rw [if_neg (by simp)]
  simp [ht, List.drop_length]

/-- Witness for C1 at the concrete frame `encode 0x15 [1, 2]`. -/
theorem decode_encode_witness :
    isType 21 = true ∧ decode (encode 21 [1, 2]) = .ok (some (21, [1, 2])) [] :=
  ⟨by decide, decode_encode 21 [1, 2] (by decide) (by decide) (by decide)⟩

/-- **C7**: a buffer holding fewer bytes than its declared length field plus
4 — in particular any buffer of fewer than 4 bytes, where no length can be
parsed — makes `decode` return no frame and leaves the buffer byte-for-byte
unchanged. -/
theorem decode_short (data : List Nat)
    (h : data.length < 4 ∨ data.length < parseU16 (data.getD 0 0) (data.getD 1 0) + 4) :
    decode data = .ok none data := by
  unfold decode
  by_cases h5 : data.length < 5
  · rw [if_pos h5]
  · rw [if_neg h5]
    have hlt : data.length < parseU16 (data.getD 0 0) (data.getD 1 0) + 4 := by
      rcases h with h | h
      · omega
      · exact h
    rw [if_pos hlt]

/-- Witness for C7 on the 3-byte residue `[1, 2, 3]`. -/
theorem decode_short_witness :
    List.length [1, 2, 3] < 4 ∧ decode [1, 2, 3] = .ok none [1, 2, 3] :=
  ⟨by decide, decode_short [1, 2, 3] (Or.inl (by decide))⟩

/-- **C8**: flipping any single bit of the body region (the type byte or the
payload) of a validly encoded frame makes `decode` report no frame while
still consuming the whole `declared_length + 4` bytes: on the corrupted
buffer it returns nothing with an empty remainder. -/
theorem decode_bitflip (t : Nat) (p : List Nat) (i j : Nat)
    ( _ht : isType t = true) ( _hbytes : ∀ b ∈ t :: p, b < 256)
    (hlen : p.length + 1 < 65536) (hi4 : 4 ≤ i) (hi : i < (encode t p).length) (hj : j < 8) :
    decode ((encode t p).set i ((encode t p).getD i 0 ^^^ 1 <<< j)) = .ok none [] := by
  obtain ⟨k, rfl⟩ : ∃ k, i = k + 4 := ⟨i - 4, by omega⟩
  have hC := crc16_lt (t :: p)
  have henc : encode t p =
      (p.length + 1) % 256 :: ((p.length + 1) / 256 % 256) :: (crc16 (t :: p)) % 256 ::
        ((crc16 (t :: p)) / 256 % 256) :: t :: p := by
    simp [encode, u16le]
  have hk : k < (t :: p).length := by
    rw [henc] at hi
    simp only [List.length_cons] at hi ⊢
    omega
  rw [henc]
  have hset4 : ∀ (a b c d v : Nat) (l : List Nat) (n : Nat),
      (a :: b :: c :: d :: l).set (n + 4) v = a :: b :: c :: d :: l.set n v :=
    fun a b c d v l n => rfl
  have hgetD4 : ∀ (a b c d : Nat) (l : List Nat) (n : Nat),
      (a :: b :: c :: d :: l).getD (n + 4) 0 = l.getD n 0 :=
    fun a b c d l n => rfl
  rw [hgetD4, hset4]
  set body' := (t :: p).set k ((t :: p).getD k 0 ^^^ 1 <<< j) with hbody'
  have hblen : body'.length = p.length + 1 := by
    rw [hbody', List.length_set, List.length_cons]
  have hL : parseU16 ((p.length + 1) % 256) ((p.length + 1) / 256 % 256) = p.length + 1 :=
    parseU16_u16le hlen
  have hCrc : parseU16 (crc16 (t :: p) % 256) (crc16 (t :: p) / 256 % 256) = crc16 (t :: p) :=
    parseU16_u16le hC
  simp only [decode, List.length_cons, List.getD_cons_zero, List.getD_cons_succ, hL, hCrc, hblen]
  rw [if_neg (by omega), if_neg (by omega)]
  simp only [List.drop_succ_cons, List.drop_zero]
  have htake : body'.take (p.length + 1) = body' := by
    rw [← hblen]
    exact List.take_length body'
  rw [htake]
  have hne : crc16 body' ≠ crc16 (t :: p) := crc16_flip_ne (t :: p) k j hk hj
  rw [if_pos hne]
  congr 1
  apply List.drop_eq_nil_of_le
  rw [hblen]

/-- Witness for C8: flipping bit 0 of the type byte of `encode 0x15 []`. -/
theorem decode_bitflip_witness :
    decode ((encode 21 []).set 4 ((encode 21 []).getD 4 0 ^^^ 1 <<< 0)) = .ok none [] :=
  decode_bitflip 21 [] 4 0 (by decide) (by decide) (by decide) (by decide) (by decide) (by decide)

/-- **C2**: the poll loop's per-tick decode-and-dispatch loop does NOT
terminate on every drained byte string: on the 3-byte residue `[1, 2, 3]`,
which `decode` rejects without consuming any bytes, the loop never exits —
for every iteration bound the loop is still running (the `else` branch issues
a connect-state probe but never breaks, and the buffer never changes). -/
theorem pollDrain_nonterminating (fuel : Nat) : pollDrainExits fuel [1, 2, 3] = false := by
  induction fuel with
  | zero => decide
  | succ fuel ih =>
      have hd : decode [1, 2, 3] = .ok none [1, 2, 3] := by decide
      simp only [pollDrainExits, hd]
      rw [if_neg (by decide)]
      exact ih

/-! ## Claim theorems: error counter, flag, state machine -/

/-- **C4**: the claim fails on the code: a `SerialException` raised by
`open()` — before the lock was acquired — reaches the handler, whose
unconditional `self.lock.release()` raises `RuntimeError` on the unlocked
lock; that exception propagates to the caller, and the error counter is left
unincremented (still 10 here) instead of the claimed release/increment/log/
return-nothing handling. -/
theorem request_openFailure_raises :
    requestModel .atOpen [] 0 0 initState =
      .raised { initState with lastRequestTime := some 0 }
  ∧ ({ initState with lastRequestTime := some (0 : ℚ) } : VState).errorCounter = 10 :=
  ⟨rfl, rfl⟩

/-- **C3** counterexample: a `CONNECT_STATE_REPORT` whose payload is empty
does not reset the error counter — the dispatcher returns with the state
unchanged and the counter still 7, refuting "resets to 0 ... whatever the
report's payload". -/
theorem report_empty_payload_no_reset :
    eventModel 0 24 [] { initState with errorCounter := 7 } =
      .ok { initState with errorCounter := 7 } [] []
  ∧ ({ initState with errorCounter := 7 } : VState).errorCounter = 7 := ⟨rfl, rfl⟩

/-- **C3** (amended): the error counter stays within [0, 10]: every state
operation preserves the bound; each communication failure handled inside
`request` (transport error during write or read, empty read, undecodable
response) increments the counter by exactly 1 saturating at 10; an ACK
response resets it to 0; and a `CONNECT_STATE_REPORT` resets it to 0 when its
payload is exactly one byte (whatever the byte's value). -/
theorem errorCounter_spec :
    (∀ (op : Op) (st st' : VState), stepOp op st = some st' →
        st.errorCounter ≤ 10 → st'.errorCounter ≤ 10)
  ∧ (∀ (fail : FailPoint) (received : List Nat) (now : ℚ) (fuel : Nat) (st : VState),
        (fail = .atWrite ∨ fail = .atRead ∨
          (fail = .noFail ∧ (received = [] ∨ ∃ rest, decode received = .ok none rest))) →
        requestModel fail received now fuel st =
          .ret .noneRet { st with lastRequestTime := some now,
                                  errorCounter := satInc st.errorCounter } [] [])
  ∧ (∀ (received : List Nat) (now : ℚ) (fuel : Nat) (st st' : VState) (q : List QItem)
        (sh : List Nat),
        requestModel .noFail received now fuel st = .ret .ackRet st' q sh →
        st'.errorCounter = 0)
  ∧ (∀ (now : ℚ) (b : Nat) (st st' : VState) (q : List QItem) (sh : List Nat),
        eventModel now 24 [b] st = .ok st' q sh → st'.errorCounter = 0) := by
  refine ⟨fun op st st' h hle => stepOp_counter_le h hle, ?_,
    fun received now fuel st st' q sh h => requestModel_ack_resets h,
    fun now b st st' q sh h => eventModel_report_resets h⟩
  rintro fail received now fuel st (rfl | rfl | ⟨rfl, hcase⟩)
  · rfl
  · rfl
  · rcases hcase with rfl | ⟨rest, hdec⟩
    · rfl
    · by_cases hr : received = []
      · subst hr; rfl
      · simp only [requestModel, if_neg hr, hdec]

/-- Witness for C3: a write-time transport failure takes the counter from 4
to 5, and a 1-byte report (value 3) resets a counter of 7 to 0. -/
theorem errorCounter_spec_witness :
    requestModel .atWrite [] 0 0 { initState with errorCounter := 4 } =
      .ret .noneRet { initState with errorCounter := 5, lastRequestTime := some 0 } [] []
  ∧ (∃ st', eventModel 0 24 [3] { initState with errorCounter := 7 } = .ok st' [] [8] ∧
      st'.errorCounter = 0) := by
  constructor
  · exact errorCounter_spec.2.1 .atWrite [] 0 0 { initState with errorCounter := 4 }
      (Or.inl rfl)
  · exact ⟨{ initState with errorCounter := 0, connectState := 3 }, rfl,
      errorCounter_spec.2.2.2 0 3 { initState with errorCounter := 7 } _ [] [8] rfl⟩

/-- **C5** counterexample: with the sticky flag set and state `NONE` (counter
at the initial 10), a report of `SERVER_CONNECTED` classifies as recovered
and emits the connect-state event, yet the flag stays `true` afterwards — the
recovery branch never clears it. -/
theorem connectionError_not_cleared :
    (eventModel 0 24 [9] { initState with connectionError := true, connectState := 3 } =
      .ok { initState with connectionError := true, connectState := 9, errorCounter := 0 } [QItem.connectChange 9] [2])
  ∧ ({ initState with connectionError := true, connectState := 9, errorCounter := 0 } : VState).connectionError = true :=
  ⟨rfl, rfl⟩

/-- **C5** (amended): the sticky `connection_error` flag is monotone under the
event dispatcher: it comes out set exactly when it was already set or the
frame processes a loss (a 1-byte `CONNECT_STATE_REPORT` reporting a state
different from the current `SERVER_CONNECTED`); it is never cleared — in
particular it is still set after a recovery report is processed and its
event emitted. -/
theorem connectionError_flag_spec (now : ℚ) (pt : Nat) (data : List Nat) (st st' : VState)
    (q : List QItem) (sh : List Nat) (h : eventModel now pt data st = .ok st' q sh) :
    st'.connectionError =
      (st.connectionError ||
        (decide (pt = 24) && decide (data.length = 1) && decide (st.connectState = 9) &&
          decide (reportState (data.getD 0 0) ≠ st.connectState))) := by
  simp only [eventModel] at h
  repeat' split at h
  all_goals first
    | (rw [EventRes.ok.injEq] at h
       obtain ⟨h1, -, -⟩ := h
       subst h1
       simp_all)
    | simp_all

/-- Witness for C5: the recovery scenario of the counterexample, fed through
the amended characterization. -/
theorem connectionError_flag_spec_witness :
    ∃ st', eventModel 0 24 [9] { initState with connectionError := true, connectState := 3 } =
        .ok st' [QItem.connectChange 9] [2] ∧ st'.connectionError = true :=
  ⟨{ initState with connectionError := true, connectState := 9, errorCounter := 0 }, rfl,
    (connectionError_flag_spec 0 24 [9]
      { initState with connectionError := true, connectState := 3 } _ _ _ rfl).trans rfl⟩

/-- **C6**: with a pending payment, the poll loop's payment check closes it
(sets it to absent and requests `SELECT_GOODS` when `SERVER_CONNECTED`, else
`UNAVAILABLE`) if and only if the elapsed time since the payment's `time`
exceeds 70 s while `active`, or 50 s while inactive; below the bound it does
nothing at all. -/
theorem paymentTimeout_spec (now : ℚ) (st : VState) (p : Payment)
    (h : st.pendingPayment = some p) :
    ((paymentCheck now st).1.pendingPayment = none ↔
        now - p.time > (if p.active then (70 : ℚ) else 50))
  ∧ (now - p.time > (if p.active then (70 : ℚ) else 50) →
        paymentCheck now st =
          ({ st with pendingPayment := none }, [idlePicture st.connectState]))
  ∧ (¬ now - p.time > (if p.active then (70 : ℚ) else 50) →
        paymentCheck now st = (st, [])) := by
  have hpc : paymentCheck now st =
      if now - p.time > (if p.active then (70 : ℚ) else 50) then
        ({ st with pendingPayment := none }, [idlePicture st.connectState])
      else (st, []) := by
    simp only [paymentCheck, h, closePayment]
  by_cases hc : now - p.time > (if p.active then (70 : ℚ) else 50)
  · rw [hpc, if_pos hc]
    exact ⟨⟨fun _ => hc, fun _ => rfl⟩, fun _ => rfl, fun hn => absurd hc hn⟩
  · rw [hpc, if_neg hc]
    refine ⟨⟨fun hnone => ?_, fun hgt => absurd hgt hc⟩,
      fun hgt => absurd hgt hc, fun _ => rfl⟩
    rw [show ((st, ([] : List Nat)).1.pendingPayment) = st.pendingPayment from rfl, h] at hnone
    exact absurd hnone (by simp)

/-- Witness for C6 at the boundary instants of the claim: an active payment
created at time 0 is not closed at 69 s and closed at 71 s; an inactive one
is not closed at 49 s and closed at 51 s. -/
theorem paymentTimeout_spec_witness :
    paymentCheck 71 { initState with pendingPayment := some ⟨150, true, 0, none⟩ } =
      ({ initState with pendingPayment := none }, [8])
  ∧ paymentCheck 69 { initState with pendingPayment := some ⟨150, true, 0, none⟩ } =
      ({ initState with pendingPayment := some ⟨150, true, 0, none⟩ }, [])
  ∧ paymentCheck 51 { initState with pendingPayment := some ⟨150, false, 0, none⟩ } =
      ({ initState with pendingPayment := none }, [8])
  ∧ paymentCheck 49 { initState with pendingPayment := some ⟨150, false, 0, none⟩ } =
      ({ initState with pendingPayment := some ⟨150, false, 0, none⟩ }, []) :=
  ⟨(paymentTimeout_spec 71 _ _ rfl).2.1 (by show (71 : ℚ) - 0 > 70; norm_num),
   (paymentTimeout_spec 69 _ _ rfl).2.2 (by show ¬(69 : ℚ) - 0 > 70; norm_num),
   (paymentTimeout_spec 51 _ _ rfl).2.1 (by show (51 : ℚ) - 0 > 50; norm_num),
   (paymentTimeout_spec 49 _ _ rfl).2.2 (by show ¬(49 : ℚ) - 0 > 50; norm_num)⟩

/-- **C9**: the per-tick connection-status rule: with the counter 0 and state
`NONE`, the state is promoted to `DISCONNECTED` without logging; with the
counter above 5 and state above `NONE`, the state is demoted to `NONE` and
the transition logged; re-running the check afterwards (counter unchanged)
logs nothing more, the state being no longer above `NONE`. -/
theorem connCheck_spec (st : VState) :
    (st.errorCounter = 0 → st.connectState = 0 →
        connCheck st = ({ st with connectState := 1 }, false))
  ∧ (5 < st.errorCounter → 0 < st.connectState →
        connCheck st = ({ st with connectState := 0 }, true))
  ∧ (5 < st.errorCounter → 0 < st.connectState →
        connCheck (connCheck st).1 = ((connCheck st).1, false)) := by
  refine ⟨fun h1 h2 => ?_, fun h1 h2 => ?_, fun h1 h2 => ?_⟩
  · unfold connCheck
    rw [if_pos ⟨h1, h2⟩]
  · unfold connCheck
    rw [if_neg (by omega), if_pos ⟨h1, h2⟩]
  · have hdem : connCheck st = ({ st with connectState := 0 }, true) := by
      unfold connCheck
      rw [if_neg (by omega), if_pos ⟨h1, h2⟩]
    rw [hdem]
    show connCheck { st with connectState := 0 } = ({ st with connectState := 0 }, false)
    have hc1 : ¬(({ st with connectState := 0 } : VState).errorCounter = 0 ∧
        ({ st with connectState := 0 } : VState).connectState = 0) := by
      show ¬(st.errorCounter = 0 ∧ (0 : Nat) = 0)
      omega
    have hc2 : ¬(5 < ({ st with connectState := 0 } : VState).errorCounter ∧
        0 < ({ st with connectState := 0 } : VState).connectState) := by
      show ¬(5 < st.errorCounter ∧ 0 < (0 : Nat))
      omega
    unfold connCheck
    rw [if_neg hc1, if_neg hc2]

/-- Witness for C9: counter 7, state `SERVER_CONNECTED`: the first check
demotes and logs, the second check changes nothing and logs nothing. -/
theorem connCheck_spec_witness :
    connCheck { initState with errorCounter := 7, connectState := 9 } =
      ({ initState with errorCounter := 7, connectState := 0 }, true)
  ∧ connCheck { initState with errorCounter := 7, connectState := 0 } =
      ({ initState with errorCounter := 7, connectState := 0 }, false) := by
  have h2 := (connCheck_spec { initState with errorCounter := 7, connectState := 9 }).2.1
    (by decide) (by decide)
  refine ⟨h2, ?_⟩
  have h3 := (connCheck_spec { initState with errorCounter := 7, connectState := 9 }).2.2
    (by decide) (by decide)
  rw [h2] at h3
  exact h3

theorem stepOp_nonreset {op : Op} {st st' : VState} (h : stepOp op st = some st')
    (h10 : st.errorCounter = 10) (h0 : st.connectState = 0) (hc : st'.errorCounter ≠ 0) :
    st'.errorCounter = 10 ∧ st'.connectState = 0 := by
  cases op with
  | req fail received now fuel =>
      simp only [stepOp] at h
      split at h
      · next v st1 q sh hreq =>
          rw [Option.some.injEq] at h
          subst h
          have h2 := requestModel_nonreset hreq hc
          refine ⟨?_, h2.1.trans h0⟩
          rcases h2.2 with h3 | h3
          · rw [h3, h10]
          · rw [h3, h10]
            decide
      · next st1 hreq =>
          rw [Option.some.injEq] at h
          subst h
          rw [requestModel_raised_eq hreq]
          exact ⟨h10, h0⟩
      · simp at h
      · simp at h
  | ev now pt data =>
      simp only [stepOp] at h
      split at h
      · next st1 q sh hev =>
          rw [Option.some.injEq] at h
          subst h
          have h2 := eventModel_nonreset hev hc
          exact ⟨h2.1.trans h10, h2.2.trans h0⟩
      · simp at h
  | tick now =>
      simp only [stepOp, Option.some.injEq] at h
      subst h
      exact ⟨(tickModel_counter now st).trans h10, tickModel_state_none now h10 h0⟩
  | serialFail =>
      simp only [stepOp, Option.some.injEq] at h
      subst h
      exact ⟨h10, rfl⟩
  | readCard amount now =>
      simp only [stepOp, Option.some.injEq] at h
      subst h
      exact ⟨h10, h0⟩
  | vendRequest amount now =>
      simp only [stepOp, Option.some.injEq] at h
      subst h
      exact ⟨h10, h0⟩
  | cancelRead =>
      simp only [stepOp, Option.some.injEq] at h
      subst h
      exact ⟨h10, h0⟩
  | cancelLast now =>
      simp only [stepOp, Option.some.injEq] at h
      subst h
      cases hp : st.pendingPayment <;> simp [hp, h10, h0]

theorem traceStates_shape (ops : List Op) (st : VState) (states : List VState)
    (h : traceStates ops st = some states) : ∃ tl, states = st :: tl := by
  cases ops with
  | nil =>
      simp only [traceStates, Option.some.injEq] at h
      exact ⟨[], h.symm⟩
  | cons op rest =>
      simp only [traceStates] at h
      cases hstep : stepOp op st with
      | none => rw [hstep] at h; simp at h
      | some st1 =>
          rw [hstep] at h
          dsimp only at h
          cases htr : traceStates rest st1 with
          | none => rw [htr] at h; simp at h
          | some s' =>
              rw [htr] at h
              simp only [Option.map_some', Option.some.injEq] at h
              exact ⟨s', h.symm⟩

theorem traceStates_nonreset : ∀ (ops : List Op) (st : VState) (states : List VState),
    traceStates ops st = some states → st.errorCounter = 10 → st.connectState = 0 →
    (∀ s ∈ states, s.errorCounter ≠ 0) →
    ∀ s ∈ states, s.errorCounter = 10 ∧ s.connectState = 0 := by
  intro ops
  induction ops with
  | nil =>
      intro st states h h10 h0 hall s hs
      simp only [traceStates, Option.some.injEq] at h
      subst h
      rcases List.mem_cons.mp hs with rfl | hs'
      · exact ⟨h10, h0⟩
      · exact absurd hs' (List.not_mem_nil s)
  | cons op rest ih =>
      intro st states h h10 h0 hall s hs
      simp only [traceStates] at h
      cases hstep : stepOp op st with
      | none => rw [hstep] at h; simp at h
      | some st1 =>
          rw [hstep] at h
          dsimp only at h
          cases htr : traceStates rest st1 with
          | none => rw [htr] at h; simp at h
          | some states' =>
              rw [htr] at h
              simp only [Option.map_some', Option.some.injEq] at h
              subst h
              obtain ⟨tl, rfl⟩ := traceStates_shape rest st1 states' htr
              have hc1 : st1.errorCounter ≠ 0 := hall st1 (by simp)
              have hst1 := stepOp_nonreset hstep h10 h0 hc1
              rcases List.mem_cons.mp hs with rfl | hs'
              · exact ⟨h10, h0⟩
              · exact ih st1 (st1 :: tl) htr hst1.1 hst1.2
                  (fun x hx => hall x (List.mem_cons_of_mem _ hx)) s hs'

/-- **C10**: immediately after construction the error counter is 10 (its
saturation maximum), the connect state is `NONE` and no payment is pending;
consequently, along any operation sequence during which the counter is never
reset to 0 (no ACK response and no 1-byte connect-state report occurs, the
only resetting operations), no reached state is `DISCONNECTED`: the promotion
rule can never fire. -/
theorem init_state_spec :
    initState.errorCounter = 10 ∧ initState.connectState = 0 ∧
      initState.pendingPayment = none
  ∧ (∀ (ops : List Op) (states : List VState), traceStates ops initState = some states →
        (∀ s ∈ states, s.errorCounter ≠ 0) → ∀ s ∈ states, s.connectState ≠ 1) := by
  refine ⟨rfl, rfl, rfl, ?_⟩
  intro ops states h hall s hs
  have h2 := traceStates_nonreset ops initState states h rfl rfl hall s hs
  rw [h2.2]
  decide

/-- Witness for C10: one housekeeping tick from the initial state only
records the heartbeat timestamp; the reached state is not `DISCONNECTED`. -/
theorem init_state_spec_witness :
    ({ initState with lastCheckTime := some (0 : ℚ) } : VState).connectState ≠ 1 :=
  init_state_spec.2.2.2 [Op.tick 0]
    [initState, { initState with lastCheckTime := some (0 : ℚ) }] rfl (by decide)
    { initState with lastCheckTime := some (0 : ℚ) } (by simp)

end Vendista
